import Mathlib

set_option maxRecDepth 8000

/-!
Verification of the medical-claim assistant core (`src/main.py`, `src/app.py`).

The Python code is shallowly embedded: strings are `String`/`List Char`,
Python dynamic values are the inductive `PyVal`, exceptions are `Except`,
and the regular-expression operations used by the source are implemented
as executable character-level scanners that realise the exact semantics of
the concrete patterns appearing in the source (documented at each
definition).  Monetary values produced by Python `float(...)` are modelled
as exact rationals: every numeric token the code can extract has at most
two decimal digits, so this is faithful up to the usual binary-float
rounding, which none of the verified statements depend on.
-/

namespace MedBill

/-! ## Python string primitives -/

/-- Python whitespace (the ASCII part of `str.strip` / regex `\s`):
space, tab, newline, carriage return, vertical tab, form feed. -/
def pyIsSpace (c : Char) : Bool :=
  c == ' ' || c == '\t' || c == '\n' || c == '\r' || c == '\x0b' || c == '\x0c'

/-- `str.strip()` on the character list: drop whitespace from both ends. -/
def pyStripL (l : List Char) : List Char :=
  ((l.dropWhile pyIsSpace).reverse.dropWhile pyIsSpace).reverse

/-- `str.strip()`. -/
def pyStripS (s : String) : String := ⟨pyStripL s.data⟩

/-- Word characters for regex `\b` (`\w` = letters, digits, underscore; ASCII). -/
def isWordC (c : Char) : Bool := c.isAlphanum || c == '_'

/-! ## The assistant output formatter (`app.py`, `fmt_money_blocks`)

```python
def fmt_money_blocks(txt: str) -> str:
    s = txt.strip()
    s = re.sub(r'\s*(?<!^)(?=(\d+\.\s))', '\n', s)        # step 1
    s = re.sub(r'\.\s+', '. ', s)                          # step 2
    s = s.replace('3. Breakdown:', '3. Breakdown:\n')      # step 3
    if 'Breakdown:' in s:                                  # step 4
        head, tail = s.split('Breakdown:', 1)
        tail = tail.replace(' - ', '\n   - ')
        s = head + 'Breakdown:' + tail
    s = re.sub(r'\n{3,}', '\n\n', s)                       # step 5
    return s
```

Each `re.sub` is realised as a left-to-right scanner with the Python 3.7+
substitution semantics (an empty match is also replaced immediately after a
previous match; after an empty match one character is copied verbatim). -/

/-- The lookahead `(?=(\d+\.\s))` of step 1 at the current position: one or
more digits, then a literal dot, then one whitespace character.  (Greedy
`\d+` cannot backtrack into a successful match, because the character after
a shortened digit run would be a digit, not the required dot.) -/
def lookNum (l : List Char) : Bool :=
  !(l.takeWhile Char.isDigit).isEmpty &&
    match l.dropWhile Char.isDigit with
    | '.' :: c :: _ => pyIsSpace c
    | _ => false

/-- Scanner for step 1, `re.sub(r'\s*(?<!^)(?=(\d+\.\s))', '\n', s)`.

A match starting at a position consists of the maximal whitespace run there
(possibly empty), subject to `(?<!^)` (the position after the run is not the
start of the string) and the `lookNum` lookahead at the end of the run.
`ns` records "the current position is not the string start"; `skip` records
"we are inside a whitespace run that was already matched and replaced by a
single newline".  When a consumed run ends, the scanner is at the run's end
position where—per Python 3.7+ `re.sub`—an empty match fires again (the
lookahead necessarily holds there), inserting a further newline and copying
one character. -/
def sub1Aux : Bool → Bool → List Char → List Char
  | _, _, [] => []
  | _ns, skip, c :: cs =>
    if skip then
      if pyIsSpace c then sub1Aux true true cs
      else '\n' :: c :: sub1Aux true false cs
    else if pyIsSpace c then
      if lookNum (List.dropWhile pyIsSpace cs) then '\n' :: sub1Aux true true cs
      else c :: sub1Aux true false cs
    else if _ns && lookNum (c :: cs) then '\n' :: c :: sub1Aux true false cs
    else c :: sub1Aux true false cs

/-- Scanner for step 2, `re.sub(r'\.\s+', '. ', s)`: a dot followed by a
maximal nonempty whitespace run becomes dot-space.  `skip` records "inside
the whitespace run of a match" (the run was already replaced). -/
def sub2Aux : Bool → List Char → List Char
  | _, [] => []
  | skip, c :: cs =>
    if skip && pyIsSpace c then sub2Aux true cs
    else if c == '.' && (match cs with | d :: _ => pyIsSpace d | [] => false) then
      '.' :: ' ' :: sub2Aux true cs
    else c :: sub2Aux false cs

/-- Scanner for step 5, `re.sub(r'\n{3,}', '\n\n', s)`: every maximal
newline run is clamped to at most two newlines (runs of length 1 or 2 are
unchanged).  `p` is the number of pending newlines of the current run. -/
def sub5Aux : Nat → List Char → List Char
  | p, [] => List.replicate (min p 2) '\n'
  | p, c :: cs =>
    if c == '\n' then sub5Aux (p + 1) cs
    else List.replicate (min p 2) '\n' ++ c :: sub5Aux 0 cs

/-- Python `str.replace(pat, rep)` (all leftmost non-overlapping
occurrences, scanning resumes after each replacement).  The fuel is the
length of the string; each step consumes at least one character, so the
fuel never runs out on the initial call. -/
def replaceAllAux (pat rep : List Char) : Nat → List Char → List Char
  | _, [] => []
  | 0, l => l
  | fuel + 1, c :: cs =>
    if pat.isPrefixOf (c :: cs) then
      rep ++ replaceAllAux pat rep fuel ((c :: cs).drop pat.length)
    else c :: replaceAllAux pat rep fuel cs

/-- `str.replace` entry point. -/
def replaceAllL (pat rep l : List Char) : List Char :=
  replaceAllAux pat rep l.length l

/-- Python `pat in s` (substring containment). -/
def containsSub (pat : List Char) : List Char → Bool
  | [] => pat.isPrefixOf ([] : List Char)
  | c :: cs => pat.isPrefixOf (c :: cs) || containsSub pat cs

/-- Python `s.split(pat, 1)` when `pat` occurs: the part before the first
occurrence and the part after it. -/
def splitFirst (pat : List Char) : List Char → List Char × List Char
  | [] => ([], [])
  | c :: cs =>
    if pat.isPrefixOf (c :: cs) then ([], (c :: cs).drop pat.length)
    else
      let p := splitFirst pat cs
      (c :: p.1, p.2)

/-- The literal `'Breakdown:'` used by steps 3 and 4. -/
def breakdownLabel : List Char := "Breakdown:".data

/-- `app.py` `fmt_money_blocks`: the assistant output formatter
(spec name `format_for_display`). -/
def fmt_money_blocks (txt : String) : String :=
  let s0 := pyStripL txt.data
  let s1 := sub1Aux false false s0
  let s2 := sub2Aux false s1
  let s3 := replaceAllL "3. Breakdown:".data "3. Breakdown:\n".data s2
  let s4 :=
    if containsSub breakdownLabel s3 then
      let ht := splitFirst breakdownLabel s3
      ht.1 ++ breakdownLabel ++ replaceAllL " - ".data "\n   - ".data ht.2
    else s3
  ⟨sub5Aux 0 s4⟩

/-! ## Python dynamic values

`_resp_text` (`main.py`) receives responses of unknown shape.  `PyVal`
models the data-like Python values that can reach it: strings, integers,
`None`, lists, dicts with string keys, and plain objects (a list of
attributes plus the string that `str()` returns for the object; for default
objects that is the `<... object at 0x...>` form, which carries no
information about the attributes). -/

inductive PyVal where
  | str (s : String)
  | int (n : Int)
  | pynone
  | list (xs : List PyVal)
  | dict (entries : List (String × PyVal))
  | obj (attrs : List (String × PyVal)) (srepr : String)

/-- The Python exceptions the embedded code can raise. -/
inductive PyErr where
  | attributeError
  | typeError
  | indexError
  | keyError
  deriving DecidableEq

/-- `hasattr(v, a)` on the modelled values: only objects carry attributes
(none of the attribute names used by `_resp_text` — `choices`, `message`,
`content`, `text` — exists on `str`, `int`, `None`, `list` or `dict`). -/
def pyHasAttr : PyVal → String → Bool
  | .obj attrs _, a => attrs.any (fun kv => kv.1 == a)
  | _, _ => false

/-- Attribute access `v.a`; raises `AttributeError` when absent. -/
def pyGetAttr : PyVal → String → Except PyErr PyVal
  | .obj attrs _, a =>
    match attrs.find? (fun kv => kv.1 == a) with
    | some kv => .ok kv.2
    | none => .error .attributeError
  | _, _ => .error .attributeError

/-- Python truthiness. -/
def pyTruthy : PyVal → Bool
  | .str s => !s.isEmpty
  | .int n => n != 0
  | .pynone => false
  | .list xs => !xs.isEmpty
  | .dict es => !es.isEmpty
  | .obj _ _ => true

/-- `v[0]`: first element of a list (IndexError when empty), first character
of a string, KeyError for a string-keyed dict, TypeError otherwise. -/
def pyIndexZero : PyVal → Except PyErr PyVal
  | .list [] => .error .indexError
  | .list (x :: _) => .ok x
  | .str s =>
    match s.data with
    | [] => .error .indexError
    | c :: _ => .ok (.str (String.mk [c]))
  | .dict _ => .error .keyError
  | _ => .error .typeError

/-- `v.strip()`: defined on strings; on every other modelled value the
attribute lookup of `strip` raises (this is where `None.strip()` or
`[..].strip()` fails inside `_resp_text`). -/
def pyStripMethod : PyVal → Except PyErr String
  | .str s => .ok (pyStripS s)
  | _ => .error .attributeError

/-- `k in v` for a string `k`: key test on dicts, element test on lists,
substring test on strings, TypeError otherwise. -/
def pyContainsStr : PyVal → String → Except PyErr Bool
  | .dict es, k => .ok (es.any (fun kv => kv.1 == k))
  | .list xs, k =>
    .ok (xs.any (fun x => match x with | .str s => s == k | _ => false))
  | .str s, k => .ok (containsSub k.data s.data)
  | _, _ => .error .typeError

/-- `v[k]` for a string key `k`: dict lookup (KeyError when the key is
absent), TypeError on every other modelled value. -/
def pySubscript : PyVal → String → Except PyErr PyVal
  | .dict es, k =>
    match es.find? (fun kv => kv.1 == k) with
    | some kv => .ok kv.2
    | none => .error .keyError
  | _, _ => .error .typeError

/-- Lookup with default on dict entries, for `d.get(k, dflt)`. -/
def dictGetD (es : List (String × PyVal)) (k : String) (dflt : PyVal) : PyVal :=
  match es.find? (fun kv => kv.1 == k) with
  | some kv => kv.2
  | none => dflt

/-- The single-quote character, used by the Python `repr` of strings. -/
def squote : String := String.mk [Char.ofNat 39]

mutual

/-- `repr(v)` on the modelled values (string escaping inside `repr` is not
modelled; no verified statement depends on the rendering of nested
containers). -/
def pyRepr : PyVal → String
  | .str s => squote ++ s ++ squote
  | .int n => toString n
  | .pynone => "None"
  | .obj _ r => r
  | .list xs => "[" ++ pyReprList xs ++ "]"
  | .dict es => "\x7b" ++ pyReprDictEntries es ++ "\x7d"

/-- Comma-separated `repr`s of list elements. -/
def pyReprList : List PyVal → String
  | [] => ""
  | [x] => pyRepr x
  | x :: xs => pyRepr x ++ ", " ++ pyReprList xs

/-- Comma-separated `'key': repr(value)` pairs of dict entries. -/
def pyReprDictEntries : List (String × PyVal) → String
  | [] => ""
  | [kv] => squote ++ kv.1 ++ squote ++ ": " ++ pyRepr kv.2
  | kv :: kvs =>
    squote ++ kv.1 ++ squote ++ ": " ++ pyRepr kv.2 ++ ", " ++ pyReprDictEntries kvs

end

/-- `str(v)`: the string itself for a string, the `repr`-based rendering
for containers, the opaque stored rendering for objects. -/
def pyStr : PyVal → String
  | .str s => s
  | .int n => toString n
  | .pynone => "None"
  | .obj _ r => r
  | .list xs => "[" ++ pyReprList xs ++ "]"
  | .dict es => "\x7b" ++ pyReprDictEntries es ++ "\x7d"

/-! ## The response normalizer (`main.py`, `_resp_text`)

```python
def _resp_text(resp) -> str:
    try:
        if hasattr(resp, "choices") and resp.choices:
            ch = resp.choices[0]
            if hasattr(ch, "message") and hasattr(ch.message, "content"):
                return ch.message.content.strip()
            if hasattr(ch, "text"):
                return ch.text.strip()
        if isinstance(resp, dict) and "choices" in resp:
            ch = resp["choices"][0]
            if "message" in ch and isinstance(ch["message"], dict):
                return ch["message"].get("content", "").strip()
            if "text" in ch:
                return ch["text"].strip()
        if hasattr(resp, "content"):
            return resp.content.strip()
    except:
        pass
    return str(resp).strip()
```

The `try` body is embedded with values in `Except PyErr (Option String)`:
`.ok (some t)` is a `return t`, `.ok none` is falling through, `.error e`
is a raised exception. -/

/-- `hasattr(resp, "choices") and resp.choices` followed by
`resp.choices[0]` (first if-block of `_resp_text`): the candidate of an
attribute-shaped response, `none` when the guard is false. -/
def candFromAttrs (resp : PyVal) : Except PyErr (Option PyVal) :=
  if pyHasAttr resp "choices" then
    match pyGetAttr resp "choices" with
    | .error e => .error e
    | .ok chs =>
      if pyTruthy chs then
        match pyIndexZero chs with
        | .error e => .error e
        | .ok ch => .ok (some ch)
      else .ok none
  else .ok none

/-- `if hasattr(ch, "message") and hasattr(ch.message, "content"): return
ch.message.content.strip()` — `none` when the guard is false. -/
def msgContentFromAttrs (ch : PyVal) : Except PyErr (Option String) :=
  if pyHasAttr ch "message" then
    match pyGetAttr ch "message" with
    | .error e => .error e
    | .ok msg =>
      if pyHasAttr msg "content" then
        match pyGetAttr msg "content" with
        | .error e => .error e
        | .ok content =>
          match pyStripMethod content with
          | .error e => .error e
          | .ok t => .ok (some t)
      else .ok none
  else .ok none

/-- `if hasattr(ch, "text"): return ch.text.strip()`. -/
def textFromAttrs (ch : PyVal) : Except PyErr (Option String) :=
  if pyHasAttr ch "text" then
    match pyGetAttr ch "text" with
    | .error e => .error e
    | .ok t =>
      match pyStripMethod t with
      | .error e => .error e
      | .ok s => .ok (some s)
  else .ok none

/-- `isinstance(resp, dict) and "choices" in resp` followed by
`resp["choices"][0]` (second if-block): the candidate of a dict-shaped
response. -/
def candFromDict (resp : PyVal) : Except PyErr (Option PyVal) :=
  match resp with
  | .dict es =>
    if es.any (fun kv => kv.1 == "choices") then
      match pySubscript (.dict es) "choices" with
      | .error e => .error e
      | .ok chs =>
        match pyIndexZero chs with
        | .error e => .error e
        | .ok ch => .ok (some ch)
    else .ok none
  | _ => .ok none

/-- `if "message" in ch and isinstance(ch["message"], dict): return
ch["message"].get("content", "").strip()` — note that `"message" in ch`
and `ch["message"]` can both raise, and that a present but non-dict
`"message"` value makes the guard false. -/
def msgContentFromDict (ch : PyVal) : Except PyErr (Option String) :=
  match pyContainsStr ch "message" with
  | .error e => .error e
  | .ok b =>
    if b then
      match pySubscript ch "message" with
      | .error e => .error e
      | .ok m =>
        match m with
        | .dict mes =>
          match pyStripMethod (dictGetD mes "content" (.str "")) with
          | .error e => .error e
          | .ok t => .ok (some t)
        | _ => .ok none
    else .ok none

/-- `if "text" in ch: return ch["text"].strip()`. -/
def textFromDict (ch : PyVal) : Except PyErr (Option String) :=
  match pyContainsStr ch "text" with
  | .error e => .error e
  | .ok b =>
    if b then
      match pySubscript ch "text" with
      | .error e => .error e
      | .ok t =>
        match pyStripMethod t with
        | .error e => .error e
        | .ok s => .ok (some s)
    else .ok none

/-- `if hasattr(resp, "content"): return resp.content.strip()` (third
if-block). -/
def contentAttr (resp : PyVal) : Except PyErr (Option String) :=
  if pyHasAttr resp "content" then
    match pyGetAttr resp "content" with
    | .error e => .error e
    | .ok cv =>
      match pyStripMethod cv with
      | .error e => .error e
      | .ok s => .ok (some s)
  else .ok none

/-- First if-block of the `try` body: attribute-shaped candidate, message
content, then flat text, falling through when nothing returns. -/
def respBlock1 (resp : PyVal) : Except PyErr (Option String) :=
  match candFromAttrs resp with
  | .error e => .error e
  | .ok none => .ok none
  | .ok (some ch) =>
    match msgContentFromAttrs ch with
    | .error e => .error e
    | .ok (some t) => .ok (some t)
    | .ok none => textFromAttrs ch

/-- Second if-block of the `try` body: dict-shaped candidate, message
content, then flat text. -/
def respBlock2 (resp : PyVal) : Except PyErr (Option String) :=
  match candFromDict resp with
  | .error e => .error e
  | .ok none => .ok none
  | .ok (some ch) =>
    match msgContentFromDict ch with
    | .error e => .error e
    | .ok (some t) => .ok (some t)
    | .ok none => textFromDict ch

/-- The whole `try` body of `_resp_text`: the three if-blocks in source
order, each falling through to the next when it does not return. -/
def respTextTry (resp : PyVal) : Except PyErr (Option String) :=
  match respBlock1 resp with
  | .error e => .error e
  | .ok (some t) => .ok (some t)
  | .ok none =>
    match respBlock2 resp with
    | .error e => .error e
    | .ok (some t) => .ok (some t)
    | .ok none => contentAttr resp

/-- `main.py` `_resp_text`: the `except: pass` swallows every exception of
the `try` body, after which the final `return str(resp).strip()` runs. -/
def _resp_text (resp : PyVal) : String :=
  match respTextTry resp with
  | .ok (some t) => t
  | .ok none => pyStripS (pyStr resp)
  | .error _ => pyStripS (pyStr resp)

/-- `_resp_text` with the exception effect kept explicit at the outer
level: the value that the whole function call produces.  The only code
outside the `try/except` is `return str(resp).strip()`, which is total on
the modelled values, so every branch is `.ok`. -/
def respTextRun (resp : PyVal) : Except PyErr String :=
  match respTextTry resp with
  | .ok (some t) => .ok t
  | .ok none => .ok (pyStripS (pyStr resp))
  | .error _ => .ok (pyStripS (pyStr resp))

/-- Modelled from the spec (claim C3, amended): strategy (a), the first
candidate's message-style content, in the attribute-shaped or the
dict-shaped realisation depending on the response's own shape. -/
def strategyMsgContent (resp : PyVal) : Except PyErr (Option String) :=
  match candFromAttrs resp with
  | .error e => .error e
  | .ok (some ch) => msgContentFromAttrs ch
  | .ok none =>
    match candFromDict resp with
    | .error e => .error e
    | .ok (some ch) => msgContentFromDict ch
    | .ok none => .ok none

/-- Modelled from the spec (claim C3, amended): strategy (b), the first
candidate's flat text field. -/
def strategyFlatText (resp : PyVal) : Except PyErr (Option String) :=
  match candFromAttrs resp with
  | .error e => .error e
  | .ok (some ch) => textFromAttrs ch
  | .ok none =>
    match candFromDict resp with
    | .error e => .error e
    | .ok (some ch) => textFromDict ch
    | .ok none => .ok none

/-- Modelled from the spec (claim C3, amended): strategy (c), a top-level
content attribute holding the text. -/
def strategyTopContent (resp : PyVal) : Except PyErr (Option String) :=
  contentAttr resp

/-- Modelled from the spec (claim C3, amended): the normalizer as a
four-strategy pipeline — (a), (b), (c) attempted in that order, a false
guard progressing to the next strategy, and ANY internal exception
abandoning the structured strategies in favour of (d), the trimmed string
conversion of the whole response, which is also the final fallback. -/
def respTextSpec (resp : PyVal) : String :=
  match strategyMsgContent resp with
  | .error _ => pyStripS (pyStr resp)
  | .ok (some t) => t
  | .ok none =>
    match strategyFlatText resp with
    | .error _ => pyStripS (pyStr resp)
    | .ok (some t) => t
    | .ok none =>
      match strategyTopContent resp with
      | .error _ => pyStripS (pyStr resp)
      | .ok (some t) => t
      | .ok none => pyStripS (pyStr resp)

/-- A response whose first candidate has a message whose `content` is
`None` (so `content.strip()` raises) *and* a usable flat `text` field.
`str()` of the object is an opaque default rendering. -/
def respEx : PyVal :=
  .obj
    [("choices",
      .list
        [.obj
          [("message", .obj [("content", .pynone)] "<msg>"),
           ("text", .str " hello ")]
          "<cand>"])]
    "<resp>"

/-! ## The financial text parser (`main.py`, `parse_total_amount` and
`sum_non_payables`)

```python
def parse_total_amount(text: str):
    lines = text.splitlines()
    patterns = [r'net\s*payable', r'amount\s*payable', r'grand\s*total', r'\btotal\b']
    for p in patterns:
        for ln in reversed(lines):
            if re.search(p, ln, re.I):
                vals = re.findall(r'\b\d+(?:\.\d{1,2})?\b', ln)
                if vals:
                    return float(vals[-1])
    return None

def sum_non_payables(text, keywords):
    hits = []
    for kw in keywords:
        for ln in text.splitlines():
            if re.search(rf'\b{kw}\b', ln, re.I):
                nums = re.findall(r'\b\d+(?:\.\d{1,2})?\b', ln)
                if nums:
                    hits.append((kw, float(nums[-1])))
    return sum(v for _, v in hits), hits
```

`float(...)` is modelled as the exact rational value of the decimal token
(at most two fraction digits); keywords are taken as literal words, as the
interpolation into the regex presumes. -/

/-- The line-boundary characters of Python `str.splitlines` (`\r\n` counts
as one boundary; the set is newline, carriage return, vertical tab, form
feed, the three ASCII separators 0x1c-0x1e, NEL, and the Unicode line and
paragraph separators). -/
def isLineBreak (c : Char) : Bool :=
  c == '\n' || c == '\r' || c == '\x0b' || c == '\x0c' || c == '\x1c' ||
  c == '\x1d' || c == '\x1e' || c == '\x85' || c == '\u2028' || c == '\u2029'

/-- `str.splitlines()` worker; `cur` holds the current line reversed.  A
final line is emitted only when nonempty (Python yields no trailing empty
line for text ending in a line break). -/
def splitlinesAux (cur : List Char) : List Char → List (List Char)
  | [] => if cur.isEmpty then [] else [cur.reverse]
  | '\r' :: '\n' :: rest => cur.reverse :: splitlinesAux [] rest
  | c :: rest =>
    if isLineBreak c then cur.reverse :: splitlinesAux [] rest
    else splitlinesAux (c :: cur) rest

/-- `text.splitlines()`. -/
def splitlinesPy (s : String) : List (List Char) := splitlinesAux [] s.data

/-- Case-insensitive character comparison (`re.I`). -/
def lcEq (a b : Char) : Bool := a.toLower == b.toLower

/-- Case-insensitive literal prefix match, returning the rest on success. -/
def ciPrefix : List Char → List Char → Option (List Char)
  | [], s => some s
  | _ :: _, [] => none
  | p :: ps, c :: cs => if lcEq p c then ciPrefix ps cs else none

/-- Word-character test on an optional character (out of range counts as
non-word, as for regex `\b` at the ends of the subject). -/
def isWordCO : Option Char → Bool
  | some c => isWordC c
  | none => false

/-- Regex `\b` between two adjacent (optional) characters: exactly one of
the two is a word character. -/
def isBoundary (a b : Option Char) : Bool := isWordCO a != isWordCO b

/-- Does the literal word `w` match at this position with `\b` on both
sides?  `prev` is the character before the position.  (Word-ness is tested
on `w`'s own characters; the case-insensitive match pairs letters with
letters, so this agrees with testing the subject's characters.) -/
def matchWordAt (w : List Char) (prev : Option Char) (s : List Char) : Bool :=
  match ciPrefix w s with
  | some r => isBoundary prev w.head? && isBoundary w.getLast? r.head?
  | none => false

/-- `re.search(rf'\b{w}\b', line, re.I) is not None` for a literal keyword
`w`: try every position left to right. -/
def wordSearchAux (w : List Char) : Option Char → List Char → Bool
  | prev, [] => matchWordAt w prev []
  | prev, c :: cs => matchWordAt w prev (c :: cs) || wordSearchAux w (some c) cs

/-- Whole-word case-insensitive search. -/
def searchWordCI (w : List Char) (s : List Char) : Bool := wordSearchAux w none s

/-- Does `w1` + `\s*` + `w2` match at this position (case-insensitively)?
The greedy `\s*` needs no backtracking: `w2` starts with a letter, and
every shorter whitespace consumption leaves a whitespace character where
that letter is required. -/
def wsPairAt (w1 w2 : List Char) (s : List Char) : Bool :=
  match ciPrefix w1 s with
  | some r => (ciPrefix w2 (r.dropWhile pyIsSpace)).isSome
  | none => false

/-- `re.search(rf'{w1}\s*{w2}', line, re.I) is not None`. -/
def pairSearchAux (w1 w2 : List Char) : List Char → Bool
  | [] => wsPairAt w1 w2 []
  | c :: cs => wsPairAt w1 w2 (c :: cs) || pairSearchAux w1 w2 cs

/-- Two-word label search with optional whitespace between the words. -/
def searchPairCI (w1 w2 : List Char) (s : List Char) : Bool := pairSearchAux w1 w2 s

/-- The four total labels, in the priority order of the source. -/
inductive TotalLabel where
  | netPayable
  | amountPayable
  | grandTotal
  | total
  deriving DecidableEq

/-- `re.search(p, ln, re.I)` for each of the four patterns. -/
def labelMatches : TotalLabel → List Char → Bool
  | .netPayable, ln => searchPairCI "net".data "payable".data ln
  | .amountPayable, ln => searchPairCI "amount".data "payable".data ln
  | .grandTotal, ln => searchPairCI "grand".data "total".data ln
  | .total, ln => searchWordCI "total".data ln

/-- `patterns = [r'net\s*payable', r'amount\s*payable', r'grand\s*total',
r'\btotal\b']`. -/
def totalPatterns : List TotalLabel :=
  [.netPayable, .amountPayable, .grandTotal, .total]

/-- A match of `\d+(?:\.\d{1,2})?\b` starting at this position (the caller
has checked the leading `\b`): the maximal digit run, then greedily two
fraction digits, else one, else none, subject to the final `\b`.  A
shortened digit run can never match (the character after it would be a
digit where the dot or the boundary is required), and whenever a dot
follows the digits the fraction-free reading always satisfies the final
boundary.  Returns the token and the rest of the line. -/
def numTokenAt (s : List Char) : Option (List Char × List Char) :=
  let ds := s.takeWhile Char.isDigit
  let r := s.dropWhile Char.isDigit
  if ds.isEmpty then none
  else
    match r with
    | '.' :: f1 :: f2 :: rest =>
      if f1.isDigit && f2.isDigit && !isWordCO rest.head? then
        some (ds ++ ['.', f1, f2], rest)
      else if f1.isDigit && !isWordC f2 then
        some (ds ++ ['.', f1], f2 :: rest)
      else some (ds, r)
    | ['.', f1] =>
      if f1.isDigit then some (ds ++ ['.', f1], [])
      else some (ds, r)
    | _ => if isWordCO r.head? then none else some (ds, r)

/-- `re.findall(r'\b\d+(?:\.\d{1,2})?\b', ln)`: left-to-right scan; a match
needs a word boundary before it; scanning resumes after each match.  The
fuel is the line length; every step consumes at least one character. -/
def findNumsAux : Nat → Option Char → List Char → List (List Char)
  | _, _, [] => []
  | 0, _, _ => []
  | fuel + 1, prev, c :: cs =>
    if !isWordCO prev then
      match numTokenAt (c :: cs) with
      | some (tok, rest) => tok :: findNumsAux fuel tok.getLast? rest
      | none => findNumsAux fuel (some c) cs
    else findNumsAux fuel (some c) cs

/-- All numeric tokens of a line. -/
def findNums (l : List Char) : List (List Char) := findNumsAux l.length none l

/-- Numeric value of a digit run. -/
def digitsToNat (ds : List Char) : Nat :=
  ds.foldl (fun a d => a * 10 + (d.toNat - '0'.toNat)) 0

/-- The integer-part value of a token. -/
def tokIntPart (tok : List Char) : Nat := digitsToNat (tok.takeWhile Char.isDigit)

/-- The fraction digits of a token (those after the dot, possibly none). -/
def tokFracDigits (tok : List Char) : List Char := (tok.dropWhile Char.isDigit).drop 1

/-- `float(tok)` for a token `digits(.d{1,2})?`, as an exact rational. -/
def tokToRat (tok : List Char) : ℚ :=
  (tokIntPart tok : ℚ) +
    (digitsToNat (tokFracDigits tok) : ℚ) / ((10 : ℚ) ^ (tokFracDigits tok).length)

/-- Inner loop of `parse_total_amount` over the reversed lines: on a line
matching the pattern, return the value of the last numeric token when the
line has one; otherwise keep scanning earlier lines. -/
def scanLinesForLabel (p : TotalLabel) : List (List Char) → Option ℚ
  | [] => none
  | ln :: rest =>
    if labelMatches p ln then
      match (findNums ln).getLast? with
      | some tok => some (tokToRat tok)
      | none => scanLinesForLabel p rest
    else scanLinesForLabel p rest

/-- Outer loop of `parse_total_amount`: each pattern is tried over the
whole document (last line first) before the next pattern. -/
def scanPatterns : List TotalLabel → List (List Char) → Option ℚ
  | [], _ => none
  | p :: ps, lines =>
    match scanLinesForLabel p lines.reverse with
    | some v => some v
    | none => scanPatterns ps lines

/-- `main.py` `parse_total_amount`. -/
def parse_total_amount (text : String) : Option ℚ :=
  scanPatterns totalPatterns (splitlinesPy text)

/-- Modelled from the spec (claim C4): the candidate enumerated by a label
and a line — the last numeric token's value on a line matching the label,
absent otherwise. -/
def lineAmount (p : TotalLabel) (ln : List Char) : Option ℚ :=
  if labelMatches p ln then ((findNums ln).getLast?).map tokToRat else none

/-- Modelled from the spec (claim C4): the declarative search order —
labels in priority order, and for each label the lines from the last
backward — returning the first candidate that yields a value. -/
def parse_total_amount_spec (text : String) : Option ℚ :=
  (totalPatterns.flatMap
      (fun p => (splitlinesPy text).reverse.map (fun ln => (p, ln)))).findSome?
    (fun pl => lineAmount pl.1 pl.2)

/-- Inner loop of `sum_non_payables` for one keyword over all lines in
top-to-bottom order. -/
def snpLineLoop (kw : String) : List (List Char) → List (String × ℚ)
  | [] => []
  | ln :: rest =>
    if searchWordCI kw.data ln then
      match (findNums ln).getLast? with
      | some tok => (kw, tokToRat tok) :: snpLineLoop kw rest
      | none => snpLineLoop kw rest
    else snpLineLoop kw rest

/-- Outer loop of `sum_non_payables`: keyword-major accumulation. -/
def snpKwLoop : List String → List (List Char) → List (String × ℚ)
  | [], _ => []
  | kw :: kws, lines => snpLineLoop kw lines ++ snpKwLoop kws lines

/-- `main.py` `sum_non_payables`: the ordered hits and their sum
(`sum(...)` is a left fold from 0). -/
def sum_non_payables (text : String) (keywords : List String) :
    ℚ × List (String × ℚ) :=
  let hits := snpKwLoop keywords (splitlinesPy text)
  (hits.foldl (fun a h => a + h.2) 0, hits)

/-- Modelled from the spec (claim C5): the hit a keyword records on a line
— present when the line contains the keyword as a whole word and has a
numeric token. -/
def snpHit (kw : String) (ln : List Char) : Option (String × ℚ) :=
  if searchWordCI kw.data ln then
    ((findNums ln).getLast?).map (fun tok => (kw, tokToRat tok))
  else none

/-- Modelled from the spec (claim C5): for each keyword, for each line in
order, all hits with duplicates kept, plus the sum of the hit amounts. -/
def sum_non_payables_spec (text : String) (keywords : List String) :
    ℚ × List (String × ℚ) :=
  let hits := keywords.flatMap (fun kw => (splitlinesPy text).filterMap (snpHit kw))
  ((hits.map Prod.snd).sum, hits)

/-! ## Document extraction (`main.py`, `extract_text_from_image` and
`extract_text_from_pdf`)

```python
def extract_text_from_image(img, vision_client) -> str:
    data_url = pil_to_data_url(img)
    messages = [
        {"role": "system", "content": "Extract text exactly. Do NOT summarize."},
        {"role": "user", "content": [
            {"type": "text", "text": "Extract all text:"},
            {"type": "image_url", "image_url": {"url": data_url}},
        ]}
    ]
    resp = vision_client.invoke(messages)
    return _resp_text(resp)

def extract_text_from_pdf(file_bytes, vision_client) -> str:
    if not PYMUPDF_OK:
        return "PDF OCR requires `pip install pymupdf`"
    pages = []
    with fitz.open(stream=file_bytes, filetype="pdf") as doc:
        for page in doc:
            native = page.get_text()
            if native.strip():
                pages.append(native)
            else:
                pix = page.get_pixmap(dpi=200)
                img = Image.frombytes("RGB", (pix.width, pix.height), pix.samples)
                pages.append(extract_text_from_image(img, vision_client))
    return "\n\n".join(pages)
```

Images, the PIL/base64 encoding and the vision capability are opaque
parameters; the opened document is the list of pages `fitz.open` yields,
each carrying its native text and its rasterisation per DPI.  The
embedding additionally returns the trace of images routed through
`extract_text_from_image`, which is the observable "image-OCR call"
effect. -/

/-- The two-message exchange `extract_text_from_image` builds for a data
URL. -/
def ocrMessages (dataUrl : String) : PyVal :=
  .list
    [.dict [("role", .str "system"),
            ("content", .str "Extract text exactly. Do NOT summarize.")],
     .dict [("role", .str "user"),
            ("content",
             .list
               [.dict [("type", .str "text"), ("text", .str "Extract all text:")],
                .dict [("type", .str "image_url"),
                       ("image_url", .dict [("url", .str dataUrl)])]])]]

/-- `main.py` `extract_text_from_image`: one invocation of the vision
capability on the built exchange, normalized by `_resp_text`. -/
def extract_text_from_image {Img : Type} (invoke : PyVal → PyVal)
    (pilToDataUrl : Img → String) (img : Img) : String :=
  _resp_text (invoke (ocrMessages (pilToDataUrl img)))

/-- A page of an opened PDF document: `page.get_text()` and
`page.get_pixmap(dpi=...)`. -/
structure PdfPage (Img : Type) where
  native : String
  render : Nat → Img

/-- The per-page loop of `extract_text_from_pdf`: collects each page's
text and the trace of images sent to OCR, in page order. -/
def extractPdfPages {Img : Type} (invoke : PyVal → PyVal)
    (pilToDataUrl : Img → String) : List (PdfPage Img) → List String × List Img
  | [] => ([], [])
  | p :: ps =>
    let rest := extractPdfPages invoke pilToDataUrl ps
    if (pyStripS p.native).isEmpty then
      (extract_text_from_image invoke pilToDataUrl (p.render 200) :: rest.1,
       p.render 200 :: rest.2)
    else (p.native :: rest.1, rest.2)

/-- `main.py` `extract_text_from_pdf` (with the OCR-call trace): the fixed
advisory string when the rendering capability is unavailable, otherwise
the page texts joined with a blank line. -/
def extract_text_from_pdf {Img : Type} (pymupdf_ok : Bool)
    (invoke : PyVal → PyVal) (pilToDataUrl : Img → String)
    (doc : List (PdfPage Img)) : String × List Img :=
  if !pymupdf_ok then ("PDF OCR requires `pip install pymupdf`", [])
  else
    let r := extractPdfPages invoke pilToDataUrl doc
    (String.intercalate "\n\n" r.1, r.2)

/-! ## The conversation manager (`main.py`, `SYSTEM_PROMPT` and
`chat_with_history`) and the session actions of `app.py`

```python
def chat_with_history(chat_client, history, policy, bill_text, user_input):
    system_msg = SYSTEM_PROMPT + f"\n\nPOLICY:\n{json.dumps(policy)}\n\nBILL:\n{bill_text}\n"
    if not history or history[0]["role"] != "system":
        history.insert(0, {"role": "system", "content": system_msg})
    else:
        history[0]["content"] = system_msg
    history.append({"role": "user", "content": user_input})
    resp = chat_client.invoke(history)
    reply = _resp_text(resp)
    history.append({"role": "assistant", "content": reply})
    return reply
```

The mutation of the Python `history` list is made explicit: the embedding
returns the final history together with the outcome.  The chat capability
may fail; on failure the exception propagates after the system and user
messages are already in the history (the assistant append happens only on
success).  `json.dumps(policy)` is abstracted as the serialised policy
string (a JSON dump contains no newline; nothing below relies on that). -/

/-- A chat message `{"role": r, "content": c}`. -/
structure ChatMsg where
  role : String
  content : String
  deriving DecidableEq

/-- The fixed instruction template `SYSTEM_PROMPT` of `main.py`
(transcribed verbatim, including the truncated "which inclu" fragment). -/
def SYSTEM_PROMPT : String := "
You are a Health Insurance Claim Assistant.

INPUTS YOU ALWAYS USE
- POLICY (JSON): {policy_ctx}
- BILL TEXT (raw text): {bill_text}

GREETING
- Detect the patient name from BILL TEXT (look for “Patient Name”, “Name”, or “Mr/Ms …”).
- If the user just says hi/hello/thanks, reply with “Hi <Name>, …” (or “Hi,” if name not found) and a short friendly line asking how you can help. No analysis.

INTENT ROUTING (pick exactly one path)

A) ROOM-ONLY QUESTIONS
(Triggers when the user asks about room/room rent/room charges/room cap/bed/ward/sharing/single/private.)
Return EXACTLY this structure (one item per line; no extra commentary):

1. Eligible room: <EligibleType>; cap/day: ₹<CapPerDay or Not available>
2. Billed room: <BilledType or Not available>; rate/day: ₹<RatePerDay or Not available>; days: <Days or Not available>
3. Status: <within cap | over limit | Not available>
4. Extra you pay for room: ₹<RateDiff×Days or 0.00 or Not available>
5. Policy effect: <\"Proportionate deduction applies\" if policy.room.proportionate_deduction is true AND status is over limit; else \"No proportionate deduction\">

Notes:
- “Extra you pay for room” = max(0, billed_rate_per_day − cap_per_day) × days (use only if both numbers exist; otherwise “Not available”).
- Do NOT print reduction factors or any long explanation.

B) MONEY QUESTIONS
(coverage, how much I pay, insurance pays, payable, estimate, breakdown)
Return EXACTLY this structure (no run-ons, Markdown list):

1. Insurance pays: ₹<InsurerPays>
2. You pay: ₹<PatientPays> which inclu
3. Breakdown:
   - Total bill: ₹<TotalBill>
   - Non-payables: ₹<NonPayables>, it includes insurance company won’t pay for which mentioned in policy
   - Room charges: ₹<RoomTotal> (within cap | over limit)
   - Co-pay (<CoPayPct>%): ₹<CoPayAmount> and add the Non Payables if any
   - Up to 3 other important items as “- Label: ₹Amount”

C) OTHER QUESTIONS
- Answer briefly in up to 3 bullets or 2 short sentences.

RULES (strict)
- Use values from POLICY + BILL TEXT only.
- If a value cannot be determined, write “Not available”.
- Do NOT include proportion factors, assumptions, or extra commentary.
- One list item per line; never join multiple points in one line.
- Money must be formatted like ₹12,345.00 (two decimals).
- Be concise and patient-friendly
- Non- payable in the insurance context means “not covered by insurance”.
"

/-- `system_msg = SYSTEM_PROMPT + f\"\\n\\nPOLICY:\\n{json.dumps(policy)}\\n\\nBILL:\\n{bill_text}\\n\"`. -/
def systemMsg (policyJson billText : String) : String :=
  SYSTEM_PROMPT ++ "\n\nPOLICY:\n" ++ policyJson ++ "\n\nBILL:\n" ++ billText ++ "\n"

/-- The insert-or-overwrite of message 0: insert the system message when
the history is empty or its head is not a system message, otherwise
overwrite the head's content with the freshly built context. -/
def updatedHistory (history : List ChatMsg) (sys : String) : List ChatMsg :=
  match history with
  | [] => [⟨"system", sys⟩]
  | m :: t =>
    if m.role ≠ "system" then ⟨"system", sys⟩ :: m :: t
    else ⟨m.role, sys⟩ :: t

/-- `main.py` `chat_with_history`: rebuild message 0, append the user
turn, invoke the chat capability on the full history, normalize, append
the assistant turn, return the reply.  On an invocation failure the
already-updated history remains and the error propagates. -/
def chat_with_history (invoke : List ChatMsg → Except PyErr PyVal)
    (history : List ChatMsg) (policyJson billText userInput : String) :
    List ChatMsg × Except PyErr String :=
  match invoke (updatedHistory history (systemMsg policyJson billText) ++
      [⟨"user", userInput⟩]) with
  | .error e =>
    (updatedHistory history (systemMsg policyJson billText) ++ [⟨"user", userInput⟩],
     .error e)
  | .ok resp =>
    (updatedHistory history (systemMsg policyJson billText) ++ [⟨"user", userInput⟩]
       ++ [⟨"assistant", _resp_text resp⟩],
     .ok (_resp_text resp))

/-- The reset handler of `app.py` (`st.session_state.chat_history = []`). -/
def reset_chat (_h : List ChatMsg) : List ChatMsg := []

/-- The non-system turns a starting history contributes to the updated
history: everything after new message 0 (the whole history in the insert
branch, the tail in the overwrite branch). -/
def histCore : List ChatMsg → List ChatMsg
  | [] => []
  | m :: t => if m.role ≠ "system" then m :: t else t

/-- The assistant message a send outcome appends (none when the chat
invocation failed). -/
def replyMsgs : Except PyErr String → List ChatMsg
  | .ok r => [⟨"assistant", r⟩]
  | .error _ => []

/-- The ConversationHistory invariant: a non-empty history starts with the
system message holding the current context. -/
def histInvariant (policyJson billText : String) (h : List ChatMsg) : Prop :=
  h ≠ [] → ∃ t, h = ⟨"system", systemMsg policyJson billText⟩ :: t

/-- The conjunction of claim C7's properties for two consecutive sends
with the same policy and different bill texts: each send rebuilds message
0 from its own bill text, appends exactly one user and (on success) one
assistant message, returns the normalized reply of its chat invocation,
keeps all prior turns unchanged and in order, and the two message-0
contents differ. -/
def sendTwiceSpec (invoke1 invoke2 : List ChatMsg → Except PyErr PyVal)
    (h0 : List ChatMsg) (pj b1 b2 u1 u2 : String) : Prop :=
  let r1 := chat_with_history invoke1 h0 pj b1 u1
  let r2 := chat_with_history invoke2 r1.1 pj b2 u2
  r1.1 = ⟨"system", systemMsg pj b1⟩ ::
      (histCore h0 ++ [⟨"user", u1⟩] ++ replyMsgs r1.2) ∧
    r2.1 = ⟨"system", systemMsg pj b2⟩ ::
      (histCore h0 ++ [⟨"user", u1⟩] ++ replyMsgs r1.2 ++ [⟨"user", u2⟩] ++
        replyMsgs r2.2) ∧
    (∀ r, r1.2 = .ok r →
      ∃ v, invoke1 (⟨"system", systemMsg pj b1⟩ :: (histCore h0 ++ [⟨"user", u1⟩])) =
          .ok v ∧ r = _resp_text v) ∧
    r1.1.head?.map ChatMsg.content ≠ r2.1.head?.map ChatMsg.content

/-! ## The policy store (`main.py`, `load_policy_data`)

```python
def load_policy_data(path: str = "policy.json") -> Dict[str, Any]:
    with open(path, "r", encoding="utf-8") as f:
        return json.load(f)
```

`open` on the abstract read-only file system raises `FileNotFoundError`
for a missing path; `json.load` (opaque parser capability) raises
`JSONDecodeError` on malformed content.  Both are the startup failures the
spec names `DataFormatError`. -/

/-- The failures of the policy-source load. -/
inductive LoadErr where
  | fileNotFound
  | jsonDecodeError
  deriving DecidableEq

/-- `main.py` `load_policy_data` over a file system and a JSON parser. -/
def load_policy_data (readFile : String → Option String)
    (parseJson : String → Except Unit PyVal) (path : String) :
    Except LoadErr PyVal :=
  match readFile path with
  | none => .error .fileNotFound
  | some contents =>
    match parseJson contents with
    | .error _ => .error .jsonDecodeError
    | .ok v => .ok v

/-! # Lemmas and theorems -/

/-! ## Supporting lemmas on the string primitives -/

theorem sub5Aux_nil (p : Nat) : sub5Aux p [] = List.replicate (min p 2) '\n' := rfl

theorem sub5Aux_cons (p : Nat) (c : Char) (cs : List Char) :
    sub5Aux p (c :: cs) =
      if (c == '\n') = true then sub5Aux (p + 1) cs
      else List.replicate (min p 2) '\n' ++ c :: sub5Aux 0 cs := rfl

theorem min_succ_two_ne_zero (p : Nat) : min (p + 1) 2 ≠ 0 := by
  rcases Nat.le_total (p + 1) 2 with h | h
  · rw [Nat.min_eq_left h]
    omega
  · rw [Nat.min_eq_right h]
    omega

theorem mem_dropWhile {p : Char → Bool} {l : List Char} {a : Char}
    (h : a ∈ l.dropWhile p) : a ∈ l := by
  induction l with
  | nil => simp at h
  | cons c cs ih =>
    by_cases hp : p c
    · rw [List.dropWhile_cons_of_pos hp] at h
      exact List.mem_cons_of_mem _ (ih h)
    · rw [List.dropWhile_cons_of_neg hp] at h
      exact h

theorem mem_pyStripL {l : List Char} {a : Char} (h : a ∈ pyStripL l) : a ∈ l := by
  unfold pyStripL at h
  rw [List.mem_reverse] at h
  have h2 := mem_dropWhile h
  rw [List.mem_reverse] at h2
  exact mem_dropWhile h2

theorem lookNum_eq_false {l : List Char} (h : '.' ∉ l) : lookNum l = false := by
  unfold lookNum
  cases hd : l.dropWhile Char.isDigit with
  | nil => simp
  | cons c cs =>
    by_cases hc : c = '.'
    · exfalso
      apply h
      apply mem_dropWhile (p := Char.isDigit)
      rw [hd, hc]
      exact List.mem_cons_self _ _
    · rcases cs with _ | ⟨d, ds⟩ <;> simp_all

theorem sub1Aux_id {l : List Char} (h : '.' ∉ l) (ns : Bool) :
    sub1Aux ns false l = l := by
  induction l generalizing ns with
  | nil => rfl
  | cons c cs ih =>
    have hcs : '.' ∉ cs := fun hm => h (List.mem_cons_of_mem _ hm)
    have hln : ∀ m : List Char, (∀ a ∈ m, a ∈ c :: cs) → lookNum m = false := by
      intro m hm
      exact lookNum_eq_false (fun hdot => h (hm _ hdot))
    unfold sub1Aux
    by_cases hsp : pyIsSpace c
    · simp only [if_neg (by simp : ¬(false = true)), hsp, if_pos rfl]
      rw [hln (cs.dropWhile pyIsSpace) (fun a ha => List.mem_cons_of_mem _ (mem_dropWhile ha))]
      simp [ih hcs]
    · simp only [if_neg (by simp : ¬(false = true)), hsp]
      rw [hln (c :: cs) (fun a ha => ha)]
      simp [ih hcs]

theorem sub2Aux_id {l : List Char} (h : '.' ∉ l) : sub2Aux false l = l := by
  induction l with
  | nil => rfl
  | cons c cs ih =>
    have hcs : '.' ∉ cs := fun hm => h (List.mem_cons_of_mem _ hm)
    have hc : ¬(c == '.') = true := by
      simp only [beq_iff_eq]
      intro hc
      exact h (hc ▸ List.mem_cons_self _ _)
    unfold sub2Aux
    simp only [Bool.false_and, if_neg (by simp : ¬(false = true))]
    rw [if_neg (by simp [hc])]
    rw [ih hcs]

theorem containsSub_mem {pat l : List Char} (h : containsSub pat l = true)
    {a : Char} (ha : a ∈ pat) : a ∈ l := by
  induction l with
  | nil =>
    unfold containsSub at h
    rw [List.isPrefixOf_iff_prefix] at h
    exact h.sublist.subset ha
  | cons c cs ih =>
    unfold containsSub at h
    rcases Bool.or_eq_true _ _ |>.mp h with h1 | h2
    · rw [List.isPrefixOf_iff_prefix] at h1
      exact h1.sublist.subset ha
    · exact List.mem_cons_of_mem _ (ih h2)

theorem replaceAllAux_id {pat rep l : List Char} (h : containsSub pat l = false)
    (fuel : Nat) : replaceAllAux pat rep fuel l = l := by
  induction l generalizing fuel with
  | nil => cases fuel <;> rfl
  | cons c cs ih =>
    unfold containsSub at h
    rw [Bool.or_eq_false_iff] at h
    cases fuel with
    | zero => rfl
    | succ n =>
      unfold replaceAllAux
      rw [if_neg (by simp [h.1]), ih h.2]

theorem mem_sub5Aux {l : List Char} {p : Nat} {a : Char} (h : a ∈ sub5Aux p l) :
    a ∈ l ∨ a = '\n' := by
  induction l generalizing p with
  | nil =>
    unfold sub5Aux at h
    exact Or.inr (List.eq_of_mem_replicate h)
  | cons c cs ih =>
    unfold sub5Aux at h
    by_cases hc : (c == '\n') = true
    · rw [if_pos hc] at h
      rcases ih h with h1 | h2
      · exact Or.inl (List.mem_cons_of_mem _ h1)
      · exact Or.inr h2
    · rw [if_neg hc] at h
      rcases List.mem_append.mp h with h1 | h2
      · exact Or.inr (List.eq_of_mem_replicate h1)
      · rcases List.mem_cons.mp h2 with h3 | h4
        · exact Or.inl (h3 ▸ List.mem_cons_self _ _)
        · rcases ih h4 with h5 | h6
          · exact Or.inl (List.mem_cons_of_mem _ h5)
          · exact Or.inr h6

theorem sub5Aux_replicate (k q : Nat) (rest : List Char) :
    sub5Aux q (List.replicate k '\n' ++ rest) = sub5Aux (q + k) rest := by
  induction k generalizing q with
  | zero => rfl
  | succ n ih =>
    rw [List.replicate_succ, List.cons_append]
    rw [sub5Aux_cons, if_pos (by rfl)]
    rw [ih (q + 1)]
    have he : q + 1 + n = q + (n + 1) := by omega
    rw [he]

theorem min_min_two (p : Nat) : min (min p 2) 2 = min p 2 := by
  rcases Nat.le_total p 2 with h | h
  · rw [Nat.min_eq_left h]
    exact Nat.min_eq_left h
  · rw [Nat.min_eq_right h]
    exact Nat.min_self 2

theorem sub5Aux_idem (l : List Char) (p : Nat) :
    sub5Aux 0 (sub5Aux p l) = sub5Aux p l := by
  induction l generalizing p with
  | nil =>
    rw [sub5Aux_nil]
    rw [← List.append_nil (List.replicate (min p 2) '\n'), sub5Aux_replicate]
    rw [sub5Aux_nil, Nat.zero_add, min_min_two, List.append_nil]
  | cons c cs ih =>
    by_cases hc : (c == '\n') = true
    · rw [sub5Aux_cons p c cs, if_pos hc]
      exact ih (p + 1)
    · rw [sub5Aux_cons p c cs, if_neg hc]
      rw [sub5Aux_replicate, Nat.zero_add]
      rw [sub5Aux_cons, if_neg hc]
      rw [min_min_two, ih 0]

theorem sub5Aux_ne_nil {l : List Char} (h : l ≠ []) (p : Nat) : sub5Aux p l ≠ [] := by
  induction l generalizing p with
  | nil => exact absurd rfl h
  | cons c cs ih =>
    rw [sub5Aux_cons]
    by_cases hc : (c == '\n') = true
    · rw [if_pos hc]
      cases cs with
      | nil =>
        rw [sub5Aux_nil]
        intro hcon
        have hlen := congrArg List.length hcon
        rw [List.length_replicate] at hlen
        exact min_succ_two_ne_zero p hlen
      | cons d ds => exact ih (by simp) (p + 1)
    · rw [if_neg hc]
      simp

theorem getLast?_cons_of_ne_nil {c : Char} {cs : List Char} (h : cs ≠ []) :
    (c :: cs).getLast? = cs.getLast? := by
  cases cs with
  | nil => exact absurd rfl h
  | cons d ds => rfl

theorem getLast?_append_of_ne_nil {a b : List Char} (h : b ≠ []) :
    (a ++ b).getLast? = b.getLast? := by
  rw [List.getLast?_append]
  cases hb : b.getLast? with
  | none => exact absurd (List.getLast?_eq_none_iff.mp hb) h
  | some x => rfl

theorem getLast?_dropWhile {p : Char → Bool} {l : List Char}
    (h : l.dropWhile p ≠ []) : (l.dropWhile p).getLast? = l.getLast? := by
  induction l with
  | nil => simp at h
  | cons c cs ih =>
    by_cases hp : p c
    · rw [List.dropWhile_cons_of_pos hp] at h ⊢
      have hcs : cs ≠ [] := by
        intro hn
        rw [hn] at h
        exact h rfl
      rw [ih h, getLast?_cons_of_ne_nil hcs]
    · rw [List.dropWhile_cons_of_neg hp]

theorem dropWhile_eq_self_of_head {p : Char → Bool} {l : List Char}
    (h : ∀ c, l.head? = some c → p c = false) : l.dropWhile p = l := by
  cases l with
  | nil => rfl
  | cons c cs =>
    have := h c rfl
    rw [List.dropWhile_cons_of_neg (by simp [this])]

theorem head?_pyStripL {l : List Char} {c : Char} (h : (pyStripL l).head? = some c) :
    pyIsSpace c = false := by
  unfold pyStripL at h
  rw [List.head?_reverse] at h
  have hne : ((l.dropWhile pyIsSpace).reverse.dropWhile pyIsSpace) ≠ [] := by
    intro hn
    rw [hn] at h
    simp at h
  rw [getLast?_dropWhile hne] at h
  rw [List.getLast?_reverse] at h
  have := List.head?_dropWhile_not pyIsSpace l
  rw [h] at this
  exact this

theorem getLast?_pyStripL {l : List Char} {c : Char}
    (h : (pyStripL l).getLast? = some c) : pyIsSpace c = false := by
  unfold pyStripL at h
  rw [List.getLast?_reverse] at h
  have := List.head?_dropWhile_not pyIsSpace (l.dropWhile pyIsSpace).reverse
  rw [h] at this
  exact this

theorem head?_sub5Aux_zero {l : List Char} (h : ∀ c, l.head? = some c → pyIsSpace c = false) :
    (sub5Aux 0 l).head? = l.head? := by
  cases l with
  | nil => rfl
  | cons c cs =>
    have hc := h c rfl
    have hne : ¬(c == '\n') = true := by
      simp only [beq_iff_eq]
      intro he
      rw [he] at hc
      simp [pyIsSpace] at hc
    rw [sub5Aux_cons, if_neg hne]
    simp

theorem getLast?_sub5Aux {l : List Char} (hne : l ≠ [])
    (h : ∀ c, l.getLast? = some c → pyIsSpace c = false) (p : Nat) :
    (sub5Aux p l).getLast? = l.getLast? := by
  induction l generalizing p with
  | nil => exact absurd rfl hne
  | cons c cs ih =>
    cases cs with
    | nil =>
      have hc := h c rfl
      have hcn : ¬(c == '\n') = true := by
        simp only [beq_iff_eq]
        intro he
        rw [he] at hc
        simp [pyIsSpace] at hc
      rw [sub5Aux_cons, if_neg hcn]
      rw [getLast?_append_of_ne_nil (by simp)]
      rfl
    | cons d ds =>
      have hlast : (c :: d :: ds).getLast? = (d :: ds).getLast? := rfl
      have h' : ∀ x, (d :: ds).getLast? = some x → pyIsSpace x = false := by
        intro x hx
        exact h x (hlast ▸ hx)
      by_cases hc : (c == '\n') = true
      · rw [sub5Aux_cons, if_pos hc]
        rw [ih (by simp) h' (p + 1), hlast]
      · rw [sub5Aux_cons, if_neg hc]
        rw [getLast?_append_of_ne_nil (by simp)]
        rw [getLast?_cons_of_ne_nil (sub5Aux_ne_nil (by simp) 0)]
        rw [ih (by simp) h' 0, hlast]

theorem pyStripL_eq_self {l : List Char}
    (hh : ∀ c, l.head? = some c → pyIsSpace c = false)
    (hl : ∀ c, l.getLast? = some c → pyIsSpace c = false) : pyStripL l = l := by
  unfold pyStripL
  rw [dropWhile_eq_self_of_head hh]
  rw [dropWhile_eq_self_of_head (by
    intro c hc
    rw [List.head?_reverse] at hc
    exact hl c hc)]
  exact List.reverse_reverse l

theorem pyStripL_sub5Aux_strip (l : List Char) :
    pyStripL (sub5Aux 0 (pyStripL l)) = sub5Aux 0 (pyStripL l) := by
  by_cases hz : pyStripL l = []
  · rw [hz]
    rfl
  · apply pyStripL_eq_self
    · intro c hc
      rw [head?_sub5Aux_zero (fun x hx => head?_pyStripL hx)] at hc
      exact head?_pyStripL hc
    · intro c hc
      rw [getLast?_sub5Aux hz (fun x hx => getLast?_pyStripL hx) 0] at hc
      exact getLast?_pyStripL hc

/-- On a string containing no dot and no colon, only the trim and the
newline-collapsing step of the formatter act. -/
theorem fmt_plain_eval {s : String} (h : ∀ c ∈ s.data, c ≠ '.' ∧ c ≠ ':') :
    fmt_money_blocks s = ⟨sub5Aux 0 (pyStripL s.data)⟩ := by
  have h0 : ∀ c ∈ pyStripL s.data, c ≠ '.' ∧ c ≠ ':' :=
    fun c hc => h c (mem_pyStripL hc)
  have hdot : '.' ∉ pyStripL s.data := fun hm => (h0 _ hm).1 rfl
  have hcolon : ':' ∉ pyStripL s.data := fun hm => (h0 _ hm).2 rfl
  have hc1 : containsSub "3. Breakdown:".data (pyStripL s.data) = false := by
    by_contra hcc
    rw [Bool.not_eq_false] at hcc
    exact hcolon (containsSub_mem hcc (by decide))
  have hc2 : containsSub breakdownLabel (pyStripL s.data) = false := by
    by_contra hcc
    rw [Bool.not_eq_false] at hcc
    exact hcolon (containsSub_mem hcc (by decide))
  show (⟨sub5Aux 0
      (if containsSub breakdownLabel
            (replaceAllL "3. Breakdown:".data "3. Breakdown:\n".data
              (sub2Aux false (sub1Aux false false (pyStripL s.data)))) = true then
        (splitFirst breakdownLabel
              (replaceAllL "3. Breakdown:".data "3. Breakdown:\n".data
                (sub2Aux false (sub1Aux false false (pyStripL s.data))))).1 ++
            breakdownLabel ++
          replaceAllL " - ".data "\n   - ".data
            (splitFirst breakdownLabel
                (replaceAllL "3. Breakdown:".data "3. Breakdown:\n".data
                  (sub2Aux false (sub1Aux false false (pyStripL s.data))))).2
      else
        replaceAllL "3. Breakdown:".data "3. Breakdown:\n".data
          (sub2Aux false (sub1Aux false false (pyStripL s.data))))⟩ : String) =
    ⟨sub5Aux 0 (pyStripL s.data)⟩
  rw [sub1Aux_id hdot, sub2Aux_id hdot]
  unfold replaceAllL
  rw [replaceAllAux_id hc1]
  rw [hc2]
  simp

/-- Claim C1, counterexample: `fmt_money_blocks` (the assistant output
formatter `format_for_display`) is not idempotent.  On the input
`"3. Breakdown: ok"` one application yields `"3. Breakdown:\n ok"`, and a
second application inserts a further newline after the breakdown label,
yielding `"3. Breakdown:\n\n ok"`. -/
theorem fmt_money_blocks_not_idempotent :
    fmt_money_blocks (fmt_money_blocks "3. Breakdown: ok") ≠
      fmt_money_blocks "3. Breakdown: ok" := by decide

/-- Claim C1, amended: the formatter is idempotent on assistant texts that
contain no dot and no colon character (on such texts the numbered-point,
sentence-spacing and breakdown rewrites never fire, and the remaining
trimming and blank-line collapsing stabilise after one application).  In
general it is NOT idempotent: re-applying it inserts additional line breaks
after the breakdown label and around numbered points. -/
theorem fmt_money_blocks_idem_of_plain (s : String)
    (h : ∀ c ∈ s.data, c ≠ '.' ∧ c ≠ ':') :
    fmt_money_blocks (fmt_money_blocks s) = fmt_money_blocks s := by
  have h1 := fmt_plain_eval h
  have hydata : (fmt_money_blocks s).data = sub5Aux 0 (pyStripL s.data) := by
    rw [h1]
  have h2 : ∀ c ∈ (fmt_money_blocks s).data, c ≠ '.' ∧ c ≠ ':' := by
    intro c hc
    rw [hydata] at hc
    rcases mem_sub5Aux hc with h3 | h4
    · exact h _ (mem_pyStripL h3)
    · rw [h4]
      exact ⟨by decide, by decide⟩
  rw [fmt_plain_eval h2, h1]
  congr 1
  show sub5Aux 0 (pyStripL (sub5Aux 0 (pyStripL s.data))) = sub5Aux 0 (pyStripL s.data)
  rw [pyStripL_sub5Aux_strip, sub5Aux_idem]

/-- Witness for the amended claim C1 at the concrete input
`"Hello\n\n\n\nthere  all"`. -/
theorem fmt_money_blocks_idem_witness :
    (∀ c ∈ ("Hello\n\n\n\nthere  all" : String).data, c ≠ '.' ∧ c ≠ ':') ∧
      fmt_money_blocks (fmt_money_blocks "Hello\n\n\n\nthere  all") =
        fmt_money_blocks "Hello\n\n\n\nthere  all" :=
  ⟨by decide, fmt_money_blocks_idem_of_plain "Hello\n\n\n\nthere  all" (by decide)⟩

/-! ## Lemmas about the response normalizer -/

theorem pyStripL_idem (l : List Char) : pyStripL (pyStripL l) = pyStripL l :=
  pyStripL_eq_self (fun _ hc => head?_pyStripL hc) (fun _ hc => getLast?_pyStripL hc)

theorem pyStripS_idem (s : String) : pyStripS (pyStripS s) = pyStripS s := by
  show (⟨pyStripL (pyStripL s.data)⟩ : String) = ⟨pyStripL s.data⟩
  rw [pyStripL_idem]

theorem pyStripMethod_stripped {v : PyVal} {t : String}
    (h : pyStripMethod v = .ok t) : pyStripS t = t := by
  cases v with
  | str s =>
    unfold pyStripMethod at h
    injection h with h1
    rw [← h1]
    exact pyStripS_idem s
  | int n => exact absurd h (by unfold pyStripMethod; simp)
  | pynone => exact absurd h (by unfold pyStripMethod; simp)
  | list xs => exact absurd h (by unfold pyStripMethod; simp)
  | dict es => exact absurd h (by unfold pyStripMethod; simp)
  | obj a r => exact absurd h (by unfold pyStripMethod; simp)

theorem contentAttr_stripped {v : PyVal} {t : String}
    (h : contentAttr v = .ok (some t)) : pyStripS t = t := by
  unfold contentAttr at h
  split at h
  · split at h
    · exact absurd h (by simp)
    · split at h
      · exact absurd h (by simp)
      · next cv s heq =>
        injection h with h1
        injection h1 with h2
        rw [← h2]
        exact pyStripMethod_stripped heq
  · exact absurd h (by simp)

theorem textFromAttrs_stripped {ch : PyVal} {t : String}
    (h : textFromAttrs ch = .ok (some t)) : pyStripS t = t := by
  unfold textFromAttrs at h
  split at h
  · split at h
    · exact absurd h (by simp)
    · split at h
      · exact absurd h (by simp)
      · next tv s heq =>
        injection h with h1
        injection h1 with h2
        rw [← h2]
        exact pyStripMethod_stripped heq
  · exact absurd h (by simp)

theorem msgContentFromAttrs_stripped {ch : PyVal} {t : String}
    (h : msgContentFromAttrs ch = .ok (some t)) : pyStripS t = t := by
  unfold msgContentFromAttrs at h
  split at h
  · split at h
    · exact absurd h (by simp)
    · split at h
      · split at h
        · exact absurd h (by simp)
        · split at h
          · exact absurd h (by simp)
          · next content s heq =>
            injection h with h1
            injection h1 with h2
            rw [← h2]
            exact pyStripMethod_stripped heq
      · exact absurd h (by simp)
  · exact absurd h (by simp)

theorem textFromDict_stripped {ch : PyVal} {t : String}
    (h : textFromDict ch = .ok (some t)) : pyStripS t = t := by
  unfold textFromDict at h
  split at h
  · exact absurd h (by simp)
  · split at h
    · split at h
      · exact absurd h (by simp)
      · split at h
        · exact absurd h (by simp)
        · next tv s heq =>
          injection h with h1
          injection h1 with h2
          rw [← h2]
          exact pyStripMethod_stripped heq
    · exact absurd h (by simp)

theorem msgContentFromDict_stripped {ch : PyVal} {t : String}
    (h : msgContentFromDict ch = .ok (some t)) : pyStripS t = t := by
  unfold msgContentFromDict at h
  split at h
  · exact absurd h (by simp)
  · split at h
    · split at h
      · exact absurd h (by simp)
      · split at h
        · split at h
          · exact absurd h (by simp)
          · next mes s heq =>
            injection h with h1
            injection h1 with h2
            rw [← h2]
            exact pyStripMethod_stripped heq
        · exact absurd h (by simp)
    · exact absurd h (by simp)

theorem respBlock1_stripped {v : PyVal} {t : String}
    (h : respBlock1 v = .ok (some t)) : pyStripS t = t := by
  unfold respBlock1 at h
  split at h
  · exact absurd h (by simp)
  · exact absurd h (by simp)
  · split at h
    · exact absurd h (by simp)
    · next t' _ =>
      injection h with h1
      injection h1 with h2
      next heq =>
      rw [← h2]
      exact msgContentFromAttrs_stripped heq
    · exact textFromAttrs_stripped h

theorem respBlock2_stripped {v : PyVal} {t : String}
    (h : respBlock2 v = .ok (some t)) : pyStripS t = t := by
  unfold respBlock2 at h
  split at h
  · exact absurd h (by simp)
  · exact absurd h (by simp)
  · split at h
    · exact absurd h (by simp)
    · next t' _ =>
      injection h with h1
      injection h1 with h2
      next heq =>
      rw [← h2]
      exact msgContentFromDict_stripped heq
    · exact textFromDict_stripped h

theorem respTextTry_some_stripped {v : PyVal} {t : String}
    (h : respTextTry v = .ok (some t)) : pyStripS t = t := by
  unfold respTextTry at h
  split at h
  · exact absurd h (by simp)
  · next t' heq =>
    injection h with h1
    injection h1 with h2
    rw [← h2]
    exact respBlock1_stripped heq
  · split at h
    · exact absurd h (by simp)
    · next t' heq =>
      injection h with h1
      injection h1 with h2
      rw [← h2]
      exact respBlock2_stripped heq
    · exact contentAttr_stripped h

theorem candAttr_some_hasattr {v : PyVal} {ch : PyVal}
    (h : candFromAttrs v = .ok (some ch)) : pyHasAttr v "choices" = true := by
  unfold candFromAttrs at h
  by_cases hh : pyHasAttr v "choices" = true
  · exact hh
  · rw [if_neg hh] at h
    exact absurd h (by simp)

theorem candFromDict_eq_none_of_attrs {v ch : PyVal}
    (h : candFromAttrs v = .ok (some ch)) : candFromDict v = .ok none := by
  have hh := candAttr_some_hasattr h
  cases v <;> first | rfl | simp [pyHasAttr] at hh

/-- The control flow of `_resp_text` implements the four-strategy pipeline
of the (amended) specification. -/
theorem respText_eq_spec (v : PyVal) : _resp_text v = respTextSpec v := by
  unfold _resp_text respTextSpec respTextTry respBlock1 respBlock2
  unfold strategyMsgContent strategyFlatText strategyTopContent
  cases hca : candFromAttrs v with
  | error e => simp_all
  | ok oc =>
    cases oc with
    | some ch =>
      rw [candFromDict_eq_none_of_attrs hca]
      cases hmc : msgContentFromAttrs ch with
      | error e => simp_all
      | ok ot =>
        cases ot with
        | some t => simp_all
        | none =>
          cases hta : textFromAttrs ch with
          | error e => simp_all
          | ok os =>
            cases os with
            | some s => simp_all
            | none => cases hct : contentAttr v with
              | error e => simp_all
              | ok o3 => cases o3 <;> simp_all
    | none =>
      cases hcd : candFromDict v with
      | error e => simp_all
      | ok oc2 =>
        cases oc2 with
        | some ch =>
          cases hmc : msgContentFromDict ch with
          | error e => simp_all
          | ok ot =>
            cases ot with
            | some t => simp_all
            | none =>
              cases hta : textFromDict ch with
              | error e => simp_all
              | ok os =>
                cases os with
                | some s => simp_all
                | none => cases hct : contentAttr v with
                  | error e => simp_all
                  | ok o3 => cases o3 <;> simp_all
        | none =>
          cases hct : contentAttr v with
          | error e => simp_all
          | ok o3 => cases o3 <;> simp_all

/-- Claim C2: the response normalizer is total on every modelled value of
any shape — the `except: pass` swallows every internal exception, the final
`str(resp).strip()` always succeeds — and its result is always a trimmed
string (stripping the result again changes nothing). -/
theorem resp_text_total_and_trimmed (v : PyVal) :
    respTextRun v = .ok (_resp_text v) ∧ pyStripS (_resp_text v) = _resp_text v := by
  constructor
  · unfold respTextRun _resp_text
    cases respTextTry v with
    | error e => rfl
    | ok o => cases o <;> rfl
  · unfold _resp_text
    cases h : respTextTry v with
    | error e => exact pyStripS_idem _
    | ok o =>
      cases o with
      | none => exact pyStripS_idem _
      | some t => exact respTextTry_some_stripped h

/-- Claim C3, counterexample: on `respEx` — whose first candidate's message
content raises (its `content` is `None`) while the candidate also carries
the usable flat text field `" hello "` — the normalizer does NOT yield that
field's text `"hello"`: the exception jumps straight to (d), the string
conversion of the whole response, giving `"<resp>"`. -/
theorem resp_text_exception_skips_fallbacks :
    strategyFlatText respEx = .ok (some "hello") ∧
      _resp_text respEx = "<resp>" ∧ _resp_text respEx ≠ "hello" := by
  refine ⟨rfl, rfl, by decide⟩

/-! ## Lemmas about the financial text parser -/

theorem findSome?_cons_eq {α β : Type} (f : α → Option β) (a : α) (l : List α) :
    (a :: l).findSome? f = match f a with | some b => some b | none => l.findSome? f :=
  rfl

theorem scanLinesForLabel_eq (p : TotalLabel) (ls : List (List Char)) :
    scanLinesForLabel p ls = ls.findSome? (lineAmount p) := by
  induction ls with
  | nil => rfl
  | cons ln rest ih =>
    rw [findSome?_cons_eq]
    unfold scanLinesForLabel
    by_cases hm : labelMatches p ln
    · have hla : lineAmount p ln = ((findNums ln).getLast?).map tokToRat := by
        unfold lineAmount
        rw [if_pos hm]
      rw [if_pos hm, hla]
      cases (findNums ln).getLast? with
      | none => simpa using ih
      | some tok => simp
    · have hla : lineAmount p ln = none := by
        unfold lineAmount
        rw [if_neg hm]
      rw [if_neg hm, hla, ih]

theorem scanPatterns_eq (ps : List TotalLabel) (lines : List (List Char)) :
    scanPatterns ps lines =
      (ps.flatMap (fun p => lines.reverse.map (fun ln => (p, ln)))).findSome?
        (fun pl => lineAmount pl.1 pl.2) := by
  induction ps with
  | nil => rfl
  | cons p ps ih =>
    show (match scanLinesForLabel p lines.reverse with
          | some v => some v
          | none => scanPatterns ps lines) = _
    rw [List.flatMap_cons, List.findSome?_append, List.findSome?_map]
    rw [show ((fun pl : TotalLabel × List Char => lineAmount pl.1 pl.2) ∘
          (fun ln => (p, ln))) = lineAmount p from rfl]
    rw [← scanLinesForLabel_eq, ← ih]
    cases scanLinesForLabel p lines.reverse <;> rfl

theorem snpLineLoop_eq (kw : String) (ls : List (List Char)) :
    snpLineLoop kw ls = ls.filterMap (snpHit kw) := by
  induction ls with
  | nil => rfl
  | cons ln rest ih =>
    rw [List.filterMap_cons]
    unfold snpLineLoop
    by_cases hm : searchWordCI kw.data ln
    · have hh : snpHit kw ln =
          ((findNums ln).getLast?).map (fun tok => (kw, tokToRat tok)) := by
        unfold snpHit
        rw [if_pos hm]
      rw [if_pos hm, hh]
      cases (findNums ln).getLast? with
      | none => simpa using ih
      | some tok => simp [ih]
    · have hh : snpHit kw ln = none := by
        unfold snpHit
        rw [if_neg hm]
      rw [if_neg hm, hh, ih]

theorem snpKwLoop_eq (kws : List String) (ls : List (List Char)) :
    snpKwLoop kws ls = kws.flatMap (fun kw => ls.filterMap (snpHit kw)) := by
  induction kws with
  | nil => rfl
  | cons kw kws ih =>
    show snpLineLoop kw ls ++ snpKwLoop kws ls = _
    rw [List.flatMap_cons, snpLineLoop_eq, ih]

theorem foldl_add_snd (hits : List (String × ℚ)) (a : ℚ) :
    hits.foldl (fun acc h => acc + h.2) a = a + (hits.map Prod.snd).sum := by
  induction hits generalizing a with
  | nil => simp
  | cons h hs ih => simp [ih, add_assoc]

/-- Claim C4: `parse_total_amount` scans the labels "net payable",
"amount payable", "grand total", "total" in that priority order, each
label over the whole text from the last line backward, and on a matching
line yields the last numeric token's value (a matching line without a
numeric token is passed over); no match at all yields `none`, never an
error.  In particular a text with a "Total: 500.00" line followed later by
a "Net Payable: 450.00" line parses to 450. -/
theorem parse_total_amount_correct :
    (∀ text, parse_total_amount text = parse_total_amount_spec text) ∧
      parse_total_amount
          "Subtotal: 100\nTotal: 500.00\nFees\nNet Payable: 450.00\nThank you" =
        some (450 : ℚ) := by
  constructor
  · intro text
    unfold parse_total_amount parse_total_amount_spec
    exact scanPatterns_eq _ _
  · have h0 : parse_total_amount
        "Subtotal: 100\nTotal: 500.00\nFees\nNet Payable: 450.00\nThank you" =
        some (tokToRat "450.00".data) := rfl
    rw [h0]
    unfold tokToRat
    rw [show tokIntPart "450.00".data = 450 from by decide]
    rw [show digitsToNat (tokFracDigits "450.00".data) = 0 from by decide]
    rw [show (tokFracDigits "450.00".data).length = 2 from by decide]
    norm_num

/-- Claim C5: `sum_non_payables` iterates keyword-major, lines
top-to-bottom, records a hit (keyword, last numeric token) for every
whole-word case-insensitive match with a numeric token, and returns all
hits in order (duplicates included) together with their sum; lines or
keywords without a match or without a numeric token contribute nothing.
For keywords ["registration", "admin fee"] over the two lines
"Registration charge 100.00" and "Admin Fee: 50.00" it returns 150 and
exactly those two hits in line order. -/
theorem sum_non_payables_correct :
    (∀ text keywords,
        sum_non_payables text keywords = sum_non_payables_spec text keywords) ∧
      sum_non_payables "Registration charge 100.00\nAdmin Fee: 50.00"
          ["registration", "admin fee"] =
        (150, [("registration", (100 : ℚ)), ("admin fee", (50 : ℚ))]) := by
  constructor
  · intro text kws
    unfold sum_non_payables sum_non_payables_spec
    rw [snpKwLoop_eq]
    simp only [foldl_add_snd, zero_add]
  · have h0 : sum_non_payables "Registration charge 100.00\nAdmin Fee: 50.00"
        ["registration", "admin fee"] =
        (0 + tokToRat "100.00".data + tokToRat "50.00".data,
         [("registration", tokToRat "100.00".data),
          ("admin fee", tokToRat "50.00".data)]) := rfl
    have e1 : tokToRat "100.00".data = 100 := by
      unfold tokToRat
      rw [show tokIntPart "100.00".data = 100 from by decide]
      rw [show digitsToNat (tokFracDigits "100.00".data) = 0 from by decide]
      rw [show (tokFracDigits "100.00".data).length = 2 from by decide]
      norm_num
    have e2 : tokToRat "50.00".data = 50 := by
      unfold tokToRat
      rw [show tokIntPart "50.00".data = 50 from by decide]
      rw [show digitsToNat (tokFracDigits "50.00".data) = 0 from by decide]
      rw [show (tokFracDigits "50.00".data).length = 2 from by decide]
      norm_num
    rw [h0, e1, e2]
    norm_num

/-- Claim C3, amended: the normalizer attempts the strategies in the fixed
order (a) first candidate's message-style content, (b) first candidate's
flat text field, (c) top-level content attribute, (d) string conversion of
the whole response — with (a) and (b) realised on the attribute-shaped or
the dict-shaped form depending on the response's own shape, and a false
guard progressing to the next strategy.  However, an internal failure in an
earlier strategy does NOT progress to the next fallback: any exception
abandons the structured strategies and terminates at (d) directly. -/
theorem resp_text_strategy_order (v : PyVal) : _resp_text v = respTextSpec v :=
  respText_eq_spec v

/-! ## Lemmas about document extraction -/

theorem extractPdfPages_eq {Img : Type} (invoke : PyVal → PyVal)
    (pilToDataUrl : Img → String) (doc : List (PdfPage Img)) :
    extractPdfPages invoke pilToDataUrl doc =
      (doc.map (fun p =>
          if (pyStripS p.native).isEmpty then
            extract_text_from_image invoke pilToDataUrl (p.render 200)
          else p.native),
       (doc.filter (fun p => (pyStripS p.native).isEmpty)).map
         (fun p => p.render 200)) := by
  induction doc with
  | nil => rfl
  | cons p ps ih =>
    unfold extractPdfPages
    rw [ih]
    by_cases hp : (pyStripS p.native).isEmpty
    · simp [hp]
    · simp [hp]

/-- Claim C6: with the rendering capability available, the pages are
processed independently and in order — a page whose native text strips to
nonempty contributes it verbatim and triggers no image-OCR call, a page
with empty native text is rasterised at 200 DPI and routed through
`extract_text_from_image` — and the output is the page texts joined with
exactly one blank line between pages, while the OCR-call trace is exactly
the 200-DPI renderings of the empty-native pages in page order. -/
theorem extract_pdf_pagewise {Img : Type} (invoke : PyVal → PyVal)
    (pilToDataUrl : Img → String) (doc : List (PdfPage Img)) :
    extract_text_from_pdf true invoke pilToDataUrl doc =
      (String.intercalate "\n\n" (doc.map (fun p =>
          if (pyStripS p.native).isEmpty then
            extract_text_from_image invoke pilToDataUrl (p.render 200)
          else p.native)),
       (doc.filter (fun p => (pyStripS p.native).isEmpty)).map
         (fun p => p.render 200)) := by
  unfold extract_text_from_pdf
  rw [extractPdfPages_eq]
  simp

/-! ## Lemmas about the conversation manager -/

theorem updatedHistory_cons (m : ChatMsg) (t : List ChatMsg) (sys : String) :
    updatedHistory (m :: t) sys =
      if m.role ≠ "system" then ⟨"system", sys⟩ :: m :: t
      else ⟨m.role, sys⟩ :: t := rfl

theorem histCore_cons (m : ChatMsg) (t : List ChatMsg) :
    histCore (m :: t) = if m.role ≠ "system" then m :: t else t := rfl

theorem updatedHistory_eq (h : List ChatMsg) (sys : String) :
    updatedHistory h sys = ⟨"system", sys⟩ :: histCore h := by
  cases h with
  | nil => rfl
  | cons m t =>
    rw [updatedHistory_cons, histCore_cons]
    by_cases hr : m.role = "system"
    · rw [if_neg (by simp [hr]), if_neg (by simp [hr]), hr]
    · rw [if_pos hr, if_pos hr]

theorem chat_with_history_shape (invoke : List ChatMsg → Except PyErr PyVal)
    (h : List ChatMsg) (pj b u : String) :
    (chat_with_history invoke h pj b u).1 =
      ⟨"system", systemMsg pj b⟩ ::
        (histCore h ++ [⟨"user", u⟩] ++
          replyMsgs (chat_with_history invoke h pj b u).2) := by
  unfold chat_with_history
  cases hi : invoke (updatedHistory h (systemMsg pj b) ++ [⟨"user", u⟩]) with
  | error e => simp [updatedHistory_eq, replyMsgs]
  | ok v => simp [updatedHistory_eq, replyMsgs]

theorem chat_with_history_reply (invoke : List ChatMsg → Except PyErr PyVal)
    (h : List ChatMsg) (pj b u : String) (r : String)
    (hr : (chat_with_history invoke h pj b u).2 = .ok r) :
    ∃ v, invoke (⟨"system", systemMsg pj b⟩ :: (histCore h ++ [⟨"user", u⟩])) =
        .ok v ∧ r = _resp_text v := by
  unfold chat_with_history at hr
  cases hi : invoke (updatedHistory h (systemMsg pj b) ++ [⟨"user", u⟩]) with
  | error e =>
    rw [hi] at hr
    simp at hr
  | ok v =>
    rw [hi] at hr
    simp at hr
    refine ⟨v, ?_, hr.symm⟩
    rw [← hi]
    congr 1
    rw [updatedHistory_eq]
    simp

theorem systemMsg_inj_bill {pj b1 b2 : String}
    (h : systemMsg pj b1 = systemMsg pj b2) : b1 = b2 := by
  unfold systemMsg at h
  have hd := congrArg String.data h
  simp only [String.data_append] at hd
  have h1 := List.append_cancel_right hd
  have h2 := List.append_cancel_left h1
  exact String.ext h2

/-- Claim C7: two consecutive sends with the same policy and different
bill texts satisfy `sendTwiceSpec` — each rebuilds message 0 from its
current bill text (insertion on the first call from an empty history,
overwrite afterwards), appends exactly one user and, on success, one
assistant message holding the normalized reply of the invocation on the
full ordered history, keeps all prior turns unchanged and in order, and
the two chat invocations see different message-0 contents. -/
theorem chat_context_freshness (invoke1 invoke2 : List ChatMsg → Except PyErr PyVal)
    (h0 : List ChatMsg) (pj b1 b2 u1 u2 : String) (hne : b1 ≠ b2) :
    sendTwiceSpec invoke1 invoke2 h0 pj b1 b2 u1 u2 := by
  have s1 := chat_with_history_shape invoke1 h0 pj b1 u1
  have s2 := chat_with_history_shape invoke2
    (chat_with_history invoke1 h0 pj b1 u1).1 pj b2 u2
  have hcore : histCore (chat_with_history invoke1 h0 pj b1 u1).1 =
      histCore h0 ++ [⟨"user", u1⟩] ++
        replyMsgs (chat_with_history invoke1 h0 pj b1 u1).2 := by
    rw [s1, histCore_cons]
    rw [if_neg (by simp)]
  refine ⟨s1, ?_, ?_, ?_⟩
  · rw [s2, hcore]
  · intro r hr
    exact chat_with_history_reply invoke1 h0 pj b1 u1 r hr
  · rw [s2, s1]
    simp only [List.head?_cons, Option.map_some', ne_eq, Option.some.injEq]
    exact fun hcon => hne (systemMsg_inj_bill hcon)

/-- Witness for claim C7 at concrete inputs (empty starting history,
always-succeeding invocations, bills "A" and "B"). -/
theorem chat_context_freshness_witness :
    ("A" ≠ "B") ∧
      sendTwiceSpec (fun _ => .ok (.str "ok")) (fun _ => .ok (.str "ok"))
        [] "pj" "A" "B" "q1" "q2" :=
  ⟨by decide, chat_context_freshness _ _ _ _ _ _ _ _ (by decide)⟩

/-- Claim C8: the ConversationHistory invariant — a non-empty history has
the system message with the current context at position 0 — holds after
every send from any starting history, and reset empties the history, so
the invariant holds vacuously after reset. -/
theorem history_invariant_preserved :
    (∀ invoke h pj b u,
        histInvariant pj b (chat_with_history invoke h pj b u).1) ∧
      ∀ h : List ChatMsg, reset_chat h = [] ∧ ∀ pj b, histInvariant pj b (reset_chat h) := by
  constructor
  · intro invoke h pj b u _hne
    exact ⟨_, chat_with_history_shape invoke h pj b u⟩
  · intro h
    exact ⟨rfl, fun pj b hne => absurd rfl hne⟩

/-- Claim C10: send is not atomic on error — when the chat capability
raises on the updated history, the error propagates, the rebuilt system
message and the appended user message remain in the final history, and
that history differs from the pre-call history. -/
theorem chat_with_history_not_atomic (invoke : List ChatMsg → Except PyErr PyVal)
    (h : List ChatMsg) (pj b u : String) (e : PyErr)
    (hfail : invoke (⟨"system", systemMsg pj b⟩ :: (histCore h ++ [⟨"user", u⟩])) =
      .error e) :
    (chat_with_history invoke h pj b u).2 = .error e ∧
      (chat_with_history invoke h pj b u).1 =
        ⟨"system", systemMsg pj b⟩ :: (histCore h ++ [⟨"user", u⟩]) ∧
      (chat_with_history invoke h pj b u).1 ≠ h := by
  have harg : updatedHistory h (systemMsg pj b) ++ [⟨"user", u⟩] =
      ⟨"system", systemMsg pj b⟩ :: (histCore h ++ [⟨"user", u⟩]) := by
    rw [updatedHistory_eq]
    simp
  refine ⟨?_, ?_, ?_⟩
  · unfold chat_with_history
    rw [harg, hfail]
  · unfold chat_with_history
    rw [harg, hfail]
  · unfold chat_with_history
    rw [harg, hfail]
    intro hcon
    have hlen := congrArg List.length hcon
    cases h with
    | nil => simp at hlen
    | cons m t =>
      rw [histCore_cons] at hlen
      by_cases hr : m.role = "system"
      · rw [if_neg (by simp [hr])] at hlen
        simp [List.length_append] at hlen
      · rw [if_pos hr] at hlen
        simp [List.length_append] at hlen
        omega

/-- Witness for claim C10: an invocation that always raises, from the
empty history. -/
theorem chat_with_history_not_atomic_witness :
    ((fun _ : List ChatMsg => (Except.error PyErr.typeError : Except PyErr PyVal))
        (⟨"system", systemMsg "pj" "b"⟩ :: (histCore [] ++ [⟨"user", "hi"⟩])) =
      .error PyErr.typeError) ∧
      ((chat_with_history (fun _ => .error PyErr.typeError) [] "pj" "b" "hi").2 =
          .error PyErr.typeError ∧
        (chat_with_history (fun _ => .error PyErr.typeError) [] "pj" "b" "hi").1 =
          ⟨"system", systemMsg "pj" "b"⟩ :: (histCore [] ++ [⟨"user", "hi"⟩]) ∧
        (chat_with_history (fun _ => .error PyErr.typeError) [] "pj" "b" "hi").1 ≠ []) :=
  ⟨rfl, chat_with_history_not_atomic _ _ _ _ _ _ rfl⟩

/-! ## Lemmas about the policy store -/

/-- Claim C9: loading the policy catalog fails whenever the data source is
missing (the open raises) or its content is not well-formed structured
data (the parse raises) — the spec's `DataFormatError` names these raised
failures, which are fatal at startup. -/
theorem load_policy_data_fails (readFile : String → Option String)
    (parseJson : String → Except Unit PyVal) (path : String)
    (hbad : readFile path = none ∨
      ∃ s, readFile path = some s ∧ parseJson s = .error ()) :
    ∃ e, load_policy_data readFile parseJson path = .error e := by
  rcases hbad with hm | ⟨s, hs, hp⟩
  · exact ⟨.fileNotFound, by unfold load_policy_data; rw [hm]⟩
  · refine ⟨.jsonDecodeError, ?_⟩
    unfold load_policy_data
    rw [hs]
    show (match parseJson s with
          | .error _ => Except.error LoadErr.jsonDecodeError
          | .ok v => Except.ok v) = Except.error LoadErr.jsonDecodeError
    rw [hp]

/-- Witness for claim C9: a file system without the policy file. -/
theorem load_policy_data_fails_witness :
    ((fun _ : String => (none : Option String)) "policy.json" = none ∨
      ∃ s, (fun _ : String => (none : Option String)) "policy.json" = some s ∧
        (fun _ : String => (Except.error () : Except Unit PyVal)) s = .error ()) ∧
      ∃ e, load_policy_data (fun _ => none) (fun _ => .error ()) "policy.json" =
        .error e :=
  ⟨Or.inl rfl, load_policy_data_fails _ _ _ (Or.inl rfl)⟩

end MedBill
